import Mathlib

/-!
Shallow embedding of the meetup front end's core reconciliation logic:
the contract-output decoders, the temporal evaluator, the view
partitioner and the proximity ranker, together with theorems checking
the natural-language specification against them.

Conventions: JS timestamps are `Int` milliseconds since the epoch;
JS `NaN` results of numeric parsing are `Option.none`; a thrown and
caught exception is `Option.none` at the try/catch boundary; browser
built-ins (Intl date formatting, TextDecoder) are passed in as explicit
function parameters, since they are external collaborators of the code.
-/

namespace Meetdot

/-- The canonical in-memory meetup record, after decoding
(`interface Meetup` in the source; `locationType` keeps the TS string
literals "Online" / "InPerson", `status` the lifecycle state string). -/
structure Meetup where
  id : Nat
  title : String
  location : String
  locationType : String
  description : String
  timestamp : Int
  price : Int
  maxAttendees : Nat
  attendees : List String
  status : String
  totalPaid : Int
  host : String
  timezone : String
deriving Repr, DecidableEq

/-- Environment for the temporal evaluator: `format ts tz` models
`new Date(new Intl.DateTimeFormat('en-US', {timeZone: tz, ...}).format(new Date(ts))).getTime()`,
i.e. the UTC instant `ts` rendered as a wall-clock string in zone `tz`
and re-parsed as a local `Date`; `none` models a thrown `RangeError`
(invalid zone name or invalid timestamp), which the source catches. -/
structure DateEnv where
  format : Int → String → Option Int

/-- The zone string passed to `Intl.DateTimeFormat` by both
`hasMeetupPassed` and `hasMeetupStarted`: `meetup.timezone || 'UTC'`
(the empty string is the only falsy string). -/
def evaluatorTimezone (m : Meetup) : String :=
  if m.timezone = "" then "UTC" else m.timezone

/-- `hasMeetupPassed` from `my-meetups` / `app/page.tsx`: derive the
local-reinterpreted start instant and compare with strict `<`; on a
formatting error return `false`. -/
def hasMeetupPassed (env : DateEnv) (m : Meetup) (currentDate : Int) : Bool :=
  match env.format m.timestamp (evaluatorTimezone m) with
  | some meetupLocalTime => decide (meetupLocalTime < currentDate)
  | none => false

/-- `hasMeetupStarted` from `my-meetups`: identical derivation, but the
comparison is `<=`. -/
def hasMeetupStarted (env : DateEnv) (m : Meetup) (currentDate : Int) : Bool :=
  match env.format m.timestamp (evaluatorTimezone m) with
  | some meetupLocalTime => decide (meetupLocalTime ≤ currentDate)
  | none => false

/-- Canonical-identity membership test from `meetup-details.tsx`
(`isUserRegistered`): `canon` models `a => u8aToHex(decodeAddress(a))`. -/
def isUserRegistered (canon : String → String) (m : Meetup) (viewer : String) : Bool :=
  m.attendees.any (fun attendee => canon attendee == canon viewer)

/-- `canRegister` from `meetup-details.tsx` (viewer account present):
Planned status, free capacity, viewer not an attendee, viewer not the
host, all identities compared in canonical (decoded public key) form. -/
def canRegister (canon : String → String) (m : Meetup) (viewer : String) : Bool :=
  m.status == "Planned" &&
  m.attendees.length < m.maxAttendees &&
  !(isUserRegistered canon m viewer) &&
  canon m.host != canon viewer

/-- A concrete record used to instantiate witnesses. -/
def demoMeetup : Meetup :=
  { id := 1, title := "Demo", location := "51.5,-0.09", locationType := "InPerson",
    description := "d", timestamp := 1700000000000, price := 0, maxAttendees := 10,
    attendees := ["alice"], status := "Planned", totalPaid := 0, host := "bob",
    timezone := "Europe/London" }

/-- A date environment whose formatting always succeeds and returns the
instant unchanged (a viewer whose local zone reading coincides). -/
def idDateEnv : DateEnv := ⟨fun ts _ => some ts⟩

/-- A date environment whose formatting always fails (invalid zone). -/
def failDateEnv : DateEnv := ⟨fun _ _ => none⟩

/-- Display-zone selection from `meetup-details.tsx` (`displayTimezone`):
the viewer's local zone for Online records, the record's own declared
zone for InPerson records. -/
def displayTimezone (userTimezone : String) (m : Meetup) : String :=
  if m.locationType = "Online" then userTimezone else m.timezone

/-- Environment for the calendar view: `localZone` is the runtime's
(viewer's) IANA zone, as produced by `Intl.DateTimeFormat().resolvedOptions().timeZone`;
`calendarDayIn zone ts` is the calendar date (year, month, day) on which
the instant `ts` falls when read in `zone` — the reading `date-fns`'s
`isSameDay` performs in the runtime's local zone. -/
structure CalendarEnv where
  localZone : String
  calendarDayIn : String → Int → Int × Int × Int

/-- The zone in which the calendar bucketing of `MeetupCalendar`
interprets a record's timestamp: `isSameDay(new Date(meetup.timestamp), date)`
always reads both instants in the runtime's local zone, for every
record. -/
def bucketingTimezone (env : CalendarEnv) (_ : Meetup) : String :=
  env.localZone

/-- `filteredMeetups` from `MeetupCalendar`: the records whose timestamp
falls on the selected calendar day; with no selected date the list is
empty. -/
def filteredMeetups (env : CalendarEnv) (meetups : List Meetup)
    (selectedDate : Option Int) : List Meetup :=
  meetups.filter (fun meetup =>
    match selectedDate with
    | some d =>
      env.calendarDayIn (bucketingTimezone env meetup) meetup.timestamp
        == env.calendarDayIn env.localZone d
    | none => false)

/-- A concrete Online record whose declared zone differs from the
viewer's. -/
def demoOnlineMeetup : Meetup :=
  { id := 2, title := "Demo online", location := "https://example.org",
    locationType := "Online", description := "d", timestamp := 1700000000000,
    price := 0, maxAttendees := 10, attendees := [], status := "Planned",
    totalPaid := 0, host := "bob", timezone := "Asia/Tokyo" }

/-- A concrete calendar environment for a viewer in New York. -/
def demoCalendarEnv : CalendarEnv :=
  ⟨"America/New_York", fun _ _ => (0, 0, 0)⟩

/-- C2 counterexample: for the Online record `demoOnlineMeetup` viewed
from `America/New_York`, the date display uses the viewer zone but the
hasStarted/hasPassed evaluator uses the record's declared zone
(`Asia/Tokyo`), so the three consumers do not use one uniform zone. -/
theorem zone_rule_not_uniform :
    ¬ (displayTimezone demoCalendarEnv.localZone demoOnlineMeetup
          = evaluatorTimezone demoOnlineMeetup ∧
        evaluatorTimezone demoOnlineMeetup
          = bucketingTimezone demoCalendarEnv demoOnlineMeetup) := by
  decide

/-- C2 amended: only the date display applies the zone-selection rule
(viewer zone when Online, record zone when InPerson); the
hasStarted/hasPassed evaluator always uses the record's declared zone
(defaulting to UTC when empty) regardless of location kind, and the
per-calendar-day bucketing always uses the viewer's local zone, so the
three consumers agree only when those zones happen to coincide. -/
theorem zone_rule_per_consumer (env : CalendarEnv) (m : Meetup) :
    (m.locationType = "Online" →
      displayTimezone env.localZone m = env.localZone ∧
      bucketingTimezone env m = env.localZone ∧
      evaluatorTimezone m = (if m.timezone = "" then "UTC" else m.timezone)) ∧
    (m.locationType ≠ "Online" →
      displayTimezone env.localZone m = m.timezone ∧
      bucketingTimezone env m = env.localZone ∧
      (m.timezone ≠ "" → evaluatorTimezone m = m.timezone)) := by
  constructor
  · intro hOnline
    refine ⟨?_, rfl, rfl⟩
    simp [displayTimezone, hOnline]
  · intro hInPerson
    refine ⟨?_, rfl, ?_⟩
    · simp [displayTimezone, hInPerson]
    · intro htz
      simp [evaluatorTimezone, htz]

/-- Witness for the amended C2 on the concrete Online record. -/
theorem zone_rule_per_consumer_witness :
    displayTimezone demoCalendarEnv.localZone demoOnlineMeetup = "America/New_York" ∧
    bucketingTimezone demoCalendarEnv demoOnlineMeetup = "America/New_York" ∧
    evaluatorTimezone demoOnlineMeetup = "Asia/Tokyo" := by
  have h := (zone_rule_per_consumer demoCalendarEnv demoOnlineMeetup).1 rfl
  refine ⟨h.1, h.2.1, ?_⟩
  rw [h.2.2]
  decide

/-- A raw JavaScript value as it reaches the enum decoders: `vundefined`
stands for `undefined`/`null`, `vstr` for a string, `vobj` for an
object with its ordered own properties. -/
inductive JsVal where
  | vundefined : JsVal
  | vstr : String → JsVal
  | vobj : List (String × JsVal) → JsVal
deriving Repr

/-- JavaScript truthiness of the modelled values: `undefined` is falsy,
a string is truthy unless empty, every object is truthy. -/
def jsTruthy : JsVal → Bool
  | .vundefined => false
  | .vstr s => s ≠ ""
  | .vobj _ => true

/-- The optional-chained property access `v?._enum`: the `_enum` field
of an object, `undefined` otherwise (including on strings). -/
def dotEnum : JsVal → JsVal
  | .vobj fields => ((fields.lookup "_enum").getD .vundefined)
  | _ => .vundefined

/-- JavaScript `a || b` on the modelled values. -/
def jsOr (a b : JsVal) : JsVal :=
  if jsTruthy a then a else b

/-- JavaScript strict equality of a modelled value with a string
literal: true only for the identical string. -/
def jsEqStr : JsVal → String → Bool
  | .vstr s, t => s == t
  | _, _ => false

/-- Status decoding in the `home.tsx` list decoder (`fetchMeetups`):
`meetup.status?._enum || 'Planned'`. -/
def statusHome (status : JsVal) : JsVal :=
  jsOr (dotEnum status) (.vstr "Planned")

/-- Location-kind decoding in the `home.tsx` list decoder:
`meetup.location_type?._enum || 'Online'` followed by
`locationType === 'Online' ? 'Online' : 'InPerson'`. -/
def locationTypeHome (location_type : JsVal) : String :=
  if jsEqStr (jsOr (dotEnum location_type) (.vstr "Online")) "Online"
  then "Online" else "InPerson"

/-- The valid lifecycle state names checked by the detail decoder. -/
def validStatuses : List String :=
  ["Planned", "Ongoing", "Ended", "Cancelled"]

/-- `Object.keys(v)[0]`: `none` models the `TypeError` thrown on
`undefined`; otherwise the first own key (string indices for a string
value), or no key for an empty object/string. -/
def firstKey : JsVal → Option (Option String)
  | .vundefined => none
  | .vstr s => some (if s.isEmpty then none else some "0")
  | .vobj fields => some ((fields.map Prod.fst).head?)

/-- Status decoding in the detail decoder (`decodedStatus`):
`Object.keys(meetupData.status)[0]`, kept when it is a valid status
name and replaced by `'Planned'` otherwise; `none` models the thrown
`TypeError` on an `undefined` status. -/
def decodedStatus (status : JsVal) : Option String :=
  (firstKey status).map (fun k =>
    match k with
    | some statusKey => if validStatuses.contains statusKey then statusKey else "Planned"
    | none => "Planned")

/-- C3 counterexample: the cited `home.tsx` list decoder maps
`{status: {_enum: "Unknown"}}` to the string `"Unknown"` (a truthy
`_enum` is taken verbatim), not to the documented default `Planned`. -/
theorem statusHome_unknown_enum :
    statusHome (.vobj [("_enum", .vstr "Unknown")]) = .vstr "Unknown" ∧
    JsVal.vstr "Unknown" ≠ .vstr "Planned" := by
  refine ⟨rfl, ?_⟩
  intro h
  injection h with h2
  exact absurd h2 (by decide)

/-- C3 amended: the two decoders are lenient but not as claimed. In the
`home.tsx` list decoder a truthy `_enum` variant name is taken verbatim
(so unrecognized variants survive), `Planned` is the default only for a
missing or falsy variant — including every bare string, which has no
`_enum` property — and the location kind becomes `Online` exactly when
the `_enum` variant is the string "Online" or is missing/falsy, every
other variant (valid or not) yielding `InPerson`. In the detail decoder
the first key of the status object is kept when it is a valid status
name and anything else — including the "_enum" key of an enum-wrapper
object and the "0" index key of a bare string — falls back to
`Planned`. -/
theorem enum_decoding_characterization :
    (∀ s : String, statusHome (.vobj [("_enum", .vstr s)])
        = (if s = "" then .vstr "Planned" else .vstr s)) ∧
    (∀ s : String, statusHome (.vstr s) = .vstr "Planned") ∧
    (statusHome .vundefined = .vstr "Planned") ∧
    (∀ s : String, locationTypeHome (.vobj [("_enum", .vstr s)])
        = (if s = "Online" ∨ s = "" then "Online" else "InPerson")) ∧
    (locationTypeHome .vundefined = "Online") ∧
    (∀ (s : String) (v : JsVal), decodedStatus (.vobj [(s, v)])
        = some (if validStatuses.contains s then s else "Planned")) ∧
    (∀ s : String, decodedStatus (.vobj [("_enum", .vstr s)]) = some "Planned") ∧
    (∀ s : String, ¬ s.isEmpty → decodedStatus (.vstr s) = some "Planned") := by
  refine ⟨?_, ?_, rfl, ?_, rfl, ?_, ?_, ?_⟩
  · intro s
    by_cases hs : s = "" <;>
      simp [statusHome, dotEnum, jsOr, jsTruthy, hs]
  · intro s
    rfl
  · intro s
    by_cases h1 : s = "Online"
    · simp [locationTypeHome, dotEnum, jsOr, jsTruthy, jsEqStr, h1]
    · by_cases h2 : s = "" <;>
        simp [locationTypeHome, dotEnum, jsOr, jsTruthy, jsEqStr, h1, h2]
  · intro s v
    simp [decodedStatus, firstKey]
  · intro s
    simp [decodedStatus, firstKey, validStatuses]
  · intro s hs
    simp [decodedStatus, firstKey, hs, validStatuses]

/-- Witness for the amended C3 at concrete raw values. -/
theorem enum_decoding_characterization_witness :
    decodedStatus (.vobj [("_enum", .vstr "Unknown")]) = some "Planned" ∧
    statusHome (.vobj [("_enum", .vstr "Ongoing")]) = .vstr "Ongoing" ∧
    decodedStatus (.vstr "Ongoing") = some "Planned" ∧
    locationTypeHome (.vobj [("_enum", .vstr "Weird")]) = "InPerson" := by
  refine ⟨enum_decoding_characterization.2.2.2.2.2.2.1 "Unknown", ?_, ?_, ?_⟩
  · have h := enum_decoding_characterization.1 "Ongoing"
    simpa using h
  · exact enum_decoding_characterization.2.2.2.2.2.2.2 "Ongoing" (by decide)
  · have h := enum_decoding_characterization.2.2.2.1 "Weird"
    simpa using h

/-- C1: whenever the zoned-format-and-reparse derivation succeeds with
value `v`, `hasMeetupPassed` is exactly `v < t` and `hasMeetupStarted`
is exactly `v ≤ t` — the same derived instant, differing only in the
comparison operator — so at `t = v` the former is false and the latter
is true. -/
theorem hasPassed_hasStarted_boundary (env : DateEnv) (m : Meetup) (t v : Int)
    (h : env.format m.timestamp (evaluatorTimezone m) = some v) :
    hasMeetupPassed env m t = decide (v < t) ∧
    hasMeetupStarted env m t = decide (v ≤ t) ∧
    hasMeetupPassed env m v = false ∧
    hasMeetupStarted env m v = true := by
  unfold hasMeetupPassed hasMeetupStarted
  rw [h]
  refine ⟨rfl, rfl, by simp, by simp⟩

/-- Witness for C1 at a concrete record, environment and instant. -/
theorem hasPassed_hasStarted_boundary_witness :
    hasMeetupPassed idDateEnv demoMeetup 1700000000000 = false ∧
    hasMeetupStarted idDateEnv demoMeetup 1700000000000 = true := by
  have h := hasPassed_hasStarted_boundary idDateEnv demoMeetup
    1700000000000 1700000000000 rfl
  exact ⟨h.2.2.1, h.2.2.2⟩

/-- C9: when the internal date formatting fails (invalid zone name or
timestamp), both predicates return `false` instead of propagating the
exception; the evaluator is a total function of the record and the
reference instant. -/
theorem evaluator_fails_closed (env : DateEnv) (m : Meetup) (t : Int)
    (h : env.format m.timestamp (evaluatorTimezone m) = none) :
    hasMeetupPassed env m t = false ∧ hasMeetupStarted env m t = false := by
  unfold hasMeetupPassed hasMeetupStarted
  rw [h]
  exact ⟨rfl, rfl⟩

/-- Witness for C9 on a concrete failing environment. -/
theorem evaluator_fails_closed_witness :
    hasMeetupPassed failDateEnv demoMeetup 0 = false ∧
    hasMeetupStarted failDateEnv demoMeetup 0 = false :=
  evaluator_fails_closed failDateEnv demoMeetup 0 rfl

/-- C5: `canRegister` is true exactly when the four conjuncts hold
(Planned, strictly below capacity, not an attendee canonically, not the
host canonically), and it is false whenever the viewer's canonical
identity equals the host's, regardless of every other field. -/
theorem canRegister_iff (canon : String → String) (m : Meetup) (viewer : String) :
    (canRegister canon m viewer = true ↔
      (m.status = "Planned" ∧ m.attendees.length < m.maxAttendees ∧
        isUserRegistered canon m viewer = false ∧ canon m.host ≠ canon viewer)) ∧
    (canon m.host = canon viewer → canRegister canon m viewer = false) := by
  constructor
  · unfold canRegister
    simp [Bool.and_eq_true, decide_eq_true_eq, Bool.not_eq_true']
    tauto
  · intro hhost
    unfold canRegister
    simp [hhost]

/-- Witness for C5: with identity canonicalization and a concrete
record hosted by the viewer, registration is refused. -/
theorem canRegister_iff_witness :
    canRegister id demoMeetup "bob" = false :=
  (canRegister_iff id demoMeetup "bob").2 rfl

/-- Value of a decimal digit character. -/
def digitVal (c : Char) : Nat := c.toNat - 48

/-- The natural number denoted by a run of decimal digit characters. -/
def natOfDigits (cs : List Char) : Nat :=
  cs.foldl (fun a c => a * 10 + digitVal c) 0

/-- The rational denoted by an integer digit run and a fraction digit
run. -/
def decimalOfParts (intPart fracPart : List Char) : ℚ :=
  (natOfDigits intPart : ℚ) + (natOfDigits fracPart : ℚ) / (10 ^ fracPart.length)

/-- Parse the longest optionally-signed decimal-literal prefix
(`[+-]? digits [. digits]?`, at least one digit), returning its value
and the remaining characters; `none` is JavaScript's `NaN`. This is the
numeric grammar shared by `Number(...)` and `parseFloat(...)` on the
coordinate strings handled here (exponent, hexadecimal and `Infinity`
forms do not occur in them and are not modelled). -/
def parseSignedDecimal (cs : List Char) : Option (ℚ × List Char) :=
  let signRest : ℚ × List Char :=
    match cs with
    | '-' :: r => (-1, r)
    | '+' :: r => (1, r)
    | r => (1, r)
  let sign := signRest.1
  let rest := signRest.2
  let intPart := rest.takeWhile Char.isDigit
  let rest2 := rest.drop intPart.length
  match rest2 with
  | '.' :: r3 =>
    let fracPart := r3.takeWhile Char.isDigit
    if intPart.isEmpty && fracPart.isEmpty then none
    else some (sign * decimalOfParts intPart fracPart, r3.drop fracPart.length)
  | _ =>
    if intPart.isEmpty then none
    else some (sign * decimalOfParts intPart [], rest2)

/-- JavaScript `parseFloat` on a character list: skip leading
whitespace, take the longest numeric prefix, `NaN` (`none`) when there
is none. -/
def parseFloatChars (cs : List Char) : Option ℚ :=
  (parseSignedDecimal (cs.dropWhile Char.isWhitespace)).map Prod.fst

/-- JavaScript `Number(...)` conversion of a string: trim whitespace,
the empty string is `0`, otherwise the whole remainder must be one
numeric literal; `none` is `NaN`. -/
def jsNumberChars (cs : List Char) : Option ℚ :=
  let t := ((cs.dropWhile Char.isWhitespace).reverse.dropWhile Char.isWhitespace).reverse
  if t.isEmpty then some 0
  else
    match parseSignedDecimal t with
    | some (q, []) => some q
    | _ => none

/-- JavaScript `String.prototype.split` with a single-character
separator (always at least one part, an empty trailing part after a
trailing separator). -/
def splitOnChar (sep : Char) : List Char → List (List Char)
  | [] => [[]]
  | c :: rest =>
    let r := splitOnChar sep rest
    if c = sep then [] :: r
    else
      match r with
      | h :: t => (c :: h) :: t
      | [] => [[c]]

/-- `Number(x)` where `x` came from an array destructuring and may be
`undefined` (`Number(undefined)` is `NaN`). -/
def jsNumberOpt : Option (List Char) → Option ℚ
  | none => none
  | some cs => jsNumberChars cs

/-- `parseFloat(x)` where `x` may be `undefined`
(`parseFloat(undefined)` coerces to the string "undefined", giving
`NaN`). -/
def parseFloatOpt : Option (List Char) → Option ℚ
  | none => none
  | some cs => parseFloatChars cs

/-- `parseLocation` from the `MeetupMap` component (`app/page.tsx`):
reject empty or pipe-containing strings, split on ",", convert the
first two parts with `Number`, and yield `null` (`none`) unless both
are numbers. -/
def parseLocation (location : String) : Option (ℚ × ℚ) :=
  if location.data.isEmpty || location.data.contains '|' then none
  else
    let parts := splitOnChar ',' location.data
    match jsNumberOpt (parts.get? 0), jsNumberOpt (parts.get? 1) with
    | some lat, some lng => some (lat, lng)
    | _, _ => none

/-- `getLocationCoords` from `meetup-details.tsx`: split on ",",
convert the first two parts with `parseFloat`, and yield `null`
(`none`) unless both are numbers. -/
def getLocationCoords (location : String) : Option (ℚ × ℚ) :=
  let parts := splitOnChar ',' location.data
  match parseFloatOpt (parts.get? 0), parseFloatOpt (parts.get? 1) with
  | some lat, some lon => some (lat, lon)
  | _, _ => none

/-- The `MeetupMap` collection filter: keep exactly the InPerson
records whose location parses. -/
def mapInPersonMeetups (meetups : List Meetup) : List Meetup :=
  meetups.filter (fun m => m.locationType == "InPerson" && (parseLocation m.location).isSome)

/-- Splitting a separator-free character list yields it whole as the
only part. -/
theorem splitOnChar_of_not_contains (sep : Char) (cs : List Char)
    (h : cs.contains sep = false) : splitOnChar sep cs = [cs] := by
  induction cs with
  | nil => rfl
  | cons c rest ih =>
    simp only [List.contains_cons, Bool.or_eq_false_iff, beq_eq_false_iff_ne] at h
    have hne : ¬ c = sep := fun hc => h.1 hc.symm
    rw [splitOnChar, if_neg hne, ih h.2]

/-- The well-formed coordinate string "51.5,-0.09" under the
`Number`-based parser. -/
theorem parseLocation_wellformed :
    parseLocation "51.5,-0.09" = some (51.5, -0.09) := by
  have h : parseLocation "51.5,-0.09"
      = some ((1 : ℚ) * decimalOfParts ['5', '1'] ['5'],
          (-1 : ℚ) * decimalOfParts ['0'] ['0', '9']) := rfl
  have h1 : natOfDigits ['5', '1'] = 51 := by decide
  have h2 : natOfDigits ['5'] = 5 := by decide
  have h3 : natOfDigits ['0'] = 0 := by decide
  have h4 : natOfDigits ['0', '9'] = 9 := by decide
  rw [h]
  simp only [decimalOfParts, h1, h2, h3, h4, List.length_cons, List.length_nil]
  norm_num

/-- The well-formed coordinate string "51.5,-0.09" under the
`parseFloat`-based parser. -/
theorem getLocationCoords_wellformed :
    getLocationCoords "51.5,-0.09" = some (51.5, -0.09) := by
  have h : getLocationCoords "51.5,-0.09"
      = some ((1 : ℚ) * decimalOfParts ['5', '1'] ['5'],
          (-1 : ℚ) * decimalOfParts ['0'] ['0', '9']) := rfl
  have h1 : natOfDigits ['5', '1'] = 51 := by decide
  have h2 : natOfDigits ['5'] = 5 := by decide
  have h3 : natOfDigits ['0'] = 0 := by decide
  have h4 : natOfDigits ['0', '9'] = 9 := by decide
  rw [h]
  simp only [decimalOfParts, h1, h2, h3, h4, List.length_cons, List.length_nil]
  norm_num

/-- C6: malformed InPerson location strings — any string containing the
legacy pipe separator, any string without a comma, and the concrete
"old|format" — parse to `none` in both coordinate parsers, the record
is merely excluded by the map filter while every other InPerson record
with a parseable location is kept (parsing is total, nothing aborts the
collection), and the well-formed "51.5,-0.09" parses to finite
coordinates in both. -/
theorem location_parsing_malformed :
    (∀ location : String, location.data.contains '|' = true →
      parseLocation location = none) ∧
    (∀ location : String, location.data.contains ',' = false →
      parseLocation location = none ∧ getLocationCoords location = none) ∧
    parseLocation "old|format" = none ∧
    getLocationCoords "old|format" = none ∧
    parseLocation "51.5,-0.09" = some (51.5, -0.09) ∧
    getLocationCoords "51.5,-0.09" = some (51.5, -0.09) ∧
    (∀ (m : Meetup) (ms : List Meetup), m ∈ ms → m.locationType = "InPerson" →
      (parseLocation m.location).isSome = true → m ∈ mapInPersonMeetups ms) := by
  refine ⟨?_, ?_, by decide, by decide, parseLocation_wellformed,
    getLocationCoords_wellformed, ?_⟩
  · intro location h
    unfold parseLocation
    have hc : (location.data.isEmpty || location.data.contains '|') = true := by
      rw [h]; simp
    rw [hc]
    rfl
  · intro location h
    constructor
    · unfold parseLocation
      by_cases he : (location.data.isEmpty || location.data.contains '|') = true
      · rw [he]
        rfl
      · rw [Bool.not_eq_true] at he
        rw [he]
        simp only [Bool.false_eq_true, if_false]
        rw [splitOnChar_of_not_contains ',' location.data h]
        cases hc : jsNumberChars location.data <;>
          simp [jsNumberOpt, hc]
    · unfold getLocationCoords
      rw [splitOnChar_of_not_contains ',' location.data h]
      cases hc : parseFloatChars location.data <;>
        simp [parseFloatOpt, hc]
  · intro m ms hm hip hsome
    unfold mapInPersonMeetups
    rw [List.mem_filter]
    exact ⟨hm, by simp [hip, hsome]⟩

/-- Witness for C6 at concrete strings and a concrete collection. -/
theorem location_parsing_malformed_witness :
    parseLocation "1,2|" = none ∧
    parseLocation "515 -009" = none ∧
    getLocationCoords "515 -009" = none ∧
    demoMeetup ∈ mapInPersonMeetups [demoMeetup, demoOnlineMeetup] := by
  refine ⟨location_parsing_malformed.1 "1,2|" (by decide),
    (location_parsing_malformed.2.1 "515 -009" (by decide)).1,
    (location_parsing_malformed.2.1 "515 -009" (by decide)).2,
    location_parsing_malformed.2.2.2.2.2.2 demoMeetup [demoMeetup, demoOnlineMeetup]
      (by simp) rfl (by decide)⟩

/-- `formatCountdown` from `meetup-utils`: for a positive remaining
duration, floor-divide the milliseconds into days, then hours within
the day, minutes within the hour and seconds within the minute.
JavaScript's `Math.floor(x / k)` and `x % k` on these non-negative
integer-valued numbers are natural division and remainder. -/
def formatCountdown (timestamp currentTime : Int) : String :=
  let diffMs := timestamp - currentTime
  if diffMs ≤ 0 then "Started"
  else
    let d := diffMs.toNat
    let days := d / (1000 * 60 * 60 * 24)
    let hours := (d % (1000 * 60 * 60 * 24)) / (1000 * 60 * 60)
    let minutes := (d % (1000 * 60 * 60)) / (1000 * 60)
    let seconds := (d % (1000 * 60)) / 1000
    s!"{days}d {hours}h {minutes}m {seconds}s"

/-- The 48-hour window constant of `meetup-card.tsx`. -/
def twoDaysInMs : Int := 48 * 60 * 60 * 1000

/-- `isWithinTwoDays` from `meetup-card.tsx`: strictly in the future
and at most 48 hours away. -/
def isWithinTwoDays (timestamp now : Int) : Bool :=
  decide (timestamp > now) && decide (timestamp ≤ now + twoDaysInMs)

/-- The countdown shown on a meetup card: present exactly within the
48-hour window (the card reads one clock value `now` per render). -/
def countdown (timestamp now : Int) : Option String :=
  if isWithinTwoDays timestamp now then some (formatCountdown timestamp now) else none

/-- C7: no countdown is produced outside the 48-hour future window;
inside it the string is "{d}d {h}h {m}m {s}s" where hours, minutes and
seconds are below their unit bounds and the four components are the
floor decomposition of the remaining whole seconds (equivalently, the
floor divisions of the remaining milliseconds at each unit boundary);
and a start 90 minutes away renders as "0d 1h 30m 0s". -/
theorem countdown_spec (timestamp now : Int) :
    (¬ (now < timestamp ∧ timestamp ≤ now + twoDaysInMs) →
      countdown timestamp now = none) ∧
    (now < timestamp → timestamp ≤ now + twoDaysInMs →
      ∃ days hours minutes seconds : Nat,
        countdown timestamp now = some s!"{days}d {hours}h {minutes}m {seconds}s" ∧
        days = (timestamp - now).toNat / (1000 * 60 * 60 * 24) ∧
        hours < 24 ∧ minutes < 60 ∧ seconds < 60 ∧
        ((days * 24 + hours) * 60 + minutes) * 60 + seconds
          = (timestamp - now).toNat / 1000) ∧
    countdown (now + 90 * 60 * 1000) now = some "0d 1h 30m 0s" := by
  refine ⟨?_, ?_, ?_⟩
  · intro h
    unfold countdown
    have hb : isWithinTwoDays timestamp now = false := by
      unfold isWithinTwoDays
      rcases not_and_or.mp h with h1 | h1 <;> simp [h1]
    rw [hb]
    rfl
  · intro h1 h2
    have hb : isWithinTwoDays timestamp now = true := by
      unfold isWithinTwoDays
      simp [h1, h2]
    have hpos : ¬ (timestamp - now ≤ 0) := by omega
    refine ⟨(timestamp - now).toNat / (1000 * 60 * 60 * 24),
      ((timestamp - now).toNat % (1000 * 60 * 60 * 24)) / (1000 * 60 * 60),
      ((timestamp - now).toNat % (1000 * 60 * 60)) / (1000 * 60),
      ((timestamp - now).toNat % (1000 * 60)) / 1000, ?_, rfl, ?_, ?_, ?_, ?_⟩
    · unfold countdown formatCountdown
      simp only [hb, if_neg hpos, if_true]
    · omega
    · omega
    · omega
    · omega
  · have hb : isWithinTwoDays (now + 90 * 60 * 1000) now = true := by
      unfold isWithinTwoDays twoDaysInMs
      simp only [Bool.and_eq_true, decide_eq_true_eq]
      omega
    have hd : now + 90 * 60 * 1000 - now = 5400000 := by omega
    unfold countdown formatCountdown
    simp only [hb, hd]
    rfl

/-- Witness for C7: a concrete start 90 minutes after a concrete clock,
and a concrete start outside the window. -/
theorem countdown_spec_witness :
    countdown (0 + 90 * 60 * 1000) 0 = some "0d 1h 30m 0s" ∧
    countdown 0 0 = none :=
  ⟨(countdown_spec 0 0).2.2, (countdown_spec 0 0).1 (by decide)⟩

/-- A raw text field value as it reaches `decodeVecU8`: a `Vec<u8>`
byte array, a string (hex-prefixed or plain), or `undefined`. -/
inductive RawText where
  | bytes : List Nat → RawText
  | str : String → RawText
  | missing : RawText

/-- The chunking performed by the regex match `/.{1,2}/g`: consecutive
two-character chunks, with a final one-character chunk when the length
is odd. -/
def chunkPairs : List Char → List (List Char)
  | [] => []
  | [c] => [[c]]
  | a :: b :: rest => [a, b] :: chunkPairs rest

/-- `payload.match(/.{1,2}/g)`: `null` (`none`) on the empty payload —
on which the source's non-null assertion would throw — and the chunk
list otherwise. -/
def matchPairs (cs : List Char) : Option (List (List Char)) :=
  if cs.isEmpty then none else some (chunkPairs cs)

/-- The value of a hexadecimal digit character, `none` for any other
character. -/
def hexDigitVal (c : Char) : Option Nat :=
  if '0' ≤ c ∧ c ≤ '9' then some (c.toNat - 48)
  else if 'a' ≤ c ∧ c ≤ 'f' then some (c.toNat - 87)
  else if 'A' ≤ c ∧ c ≤ 'F' then some (c.toNat - 55)
  else none

/-- `parseInt(chunk, 16)` on the one- or two-character chunks produced
by the regex match: the longest hex-digit prefix, `none` (`NaN`) when
the first character is not a hex digit. -/
def parseIntHex (cs : List Char) : Option Nat :=
  match cs with
  | [] => none
  | [a] => hexDigitVal a
  | a :: b :: _ =>
    match hexDigitVal a, hexDigitVal b with
    | some x, some y => some (16 * x + y)
    | some x, none => some x
    | none, _ => none

/-- The element conversion of `Uint8Array.from`: `NaN` becomes `0` and
values wrap modulo 256. -/
def toUint8 (n : Option Nat) : Nat := n.getD 0 % 256

/-- `decodeVecU8` from `app/page.tsx`: the leading falsy check
`if (!vec) return 'N/A'` maps `undefined` and the empty string to
"N/A" (an array is always truthy, even when empty); a byte array is
UTF-8-decoded (`textDecode` models `new TextDecoder().decode`); a
string starting with "0x" has its payload converted two hex characters
at a time into bytes and then UTF-8-decoded; and any other string is
returned as is. The "0x" test and the `slice(2)` are modelled on the
character list; the overall `none` models the exception thrown on the
payload-less string "0x". -/
def decodeVecU8 (textDecode : List Nat → String) : RawText → Option String
  | .missing => some "N/A"
  | .bytes vec => some (textDecode vec)
  | .str v =>
    if v.data.isEmpty then some "N/A"
    else
      match v.data with
      | '0' :: 'x' :: payload =>
        (matchPairs payload).map (fun chunks =>
          textDecode (chunks.map (fun chunk => toUint8 (parseIntHex chunk))))
      | _ => some v

/-- Whether a string begins with the hex marker "0x". -/
def hexMarked (s : String) : Bool :=
  match s.data with
  | '0' :: 'x' :: _ => true
  | _ => false

/-- Lowercase hexadecimal digit character for a value below 16. -/
def hexDigitChar (n : Nat) : Char :=
  if n < 10 then Char.ofNat (48 + n) else Char.ofNat (87 + n)

/-- The two-character lowercase hexadecimal rendering of a byte. -/
def byteToHexChars (n : Nat) : List Char :=
  [hexDigitChar (n / 16), hexDigitChar (n % 16)]

/-- The canonical "0x"-prefixed lowercase hex string of a byte list. -/
def hexEncode (bytes : List Nat) : String :=
  String.mk ('0' :: 'x' :: bytes.flatMap byteToHexChars)

/-- Parsing recovers the digit a hex digit character renders. -/
theorem hexDigitVal_hexDigitChar (n : Nat) (h : n < 16) :
    hexDigitVal (hexDigitChar n) = some n := by
  interval_cases n <;> decide

/-- Chunking the hex rendering of a byte list two characters at a time
and parsing each chunk recovers the bytes. -/
theorem chunkPairs_hexEncode (bytes : List Nat) (h : ∀ b ∈ bytes, b < 256) :
    (chunkPairs (bytes.flatMap byteToHexChars)).map
      (fun chunk => toUint8 (parseIntHex chunk)) = bytes := by
  induction bytes with
  | nil => rfl
  | cons b rest ih =>
    have hb : b < 256 := h b (List.mem_cons_self b rest)
    have hhi : hexDigitVal (hexDigitChar (b / 16)) = some (b / 16) :=
      hexDigitVal_hexDigitChar (b / 16) (by omega)
    have hlo : hexDigitVal (hexDigitChar (b % 16)) = some (b % 16) :=
      hexDigitVal_hexDigitChar (b % 16) (by omega)
    have hflat : (b :: rest).flatMap byteToHexChars
        = hexDigitChar (b / 16) :: hexDigitChar (b % 16) :: rest.flatMap byteToHexChars := by
      simp [List.flatMap_cons, byteToHexChars]
    rw [hflat, chunkPairs, List.map_cons,
      ih (fun x hx => h x (List.mem_cons_of_mem b hx))]
    have hchunk : toUint8 (parseIntHex [hexDigitChar (b / 16), hexDigitChar (b % 16)]) = b := by
      rw [parseIntHex, hhi, hlo]
      unfold toUint8
      simp only [Option.getD_some]
      omega
    rw [hchunk]

/-- C8: for every UTF-8 decoder behaviour, every text and every
non-empty byte list that decodes to that text, the byte-array form and
the "0x" hex-string form of those bytes both decode to the text, and
the plain-string form (when not itself hex-marked and not the empty
string, which the falsy check maps to "N/A") is returned verbatim —
all three valid encodings of the same text agree. -/
theorem decodeVecU8_agreement (textDecode : List Nat → String)
    (text : String) (bytes : List Nat)
    (hrange : ∀ b ∈ bytes, b < 256) (hne : bytes ≠ [])
    (hdec : textDecode bytes = text) :
    decodeVecU8 textDecode (.bytes bytes) = some text ∧
    decodeVecU8 textDecode (.str (hexEncode bytes)) = some text ∧
    (hexMarked text = false → text.data ≠ [] →
      decodeVecU8 textDecode (.str text) = some text) := by
  refine ⟨by rw [decodeVecU8, hdec], ?_, ?_⟩
  · have hdata : (hexEncode bytes).data = '0' :: 'x' :: bytes.flatMap byteToHexChars := rfl
    rw [decodeVecU8]
    rw [hdata]
    have hmatch : matchPairs (bytes.flatMap byteToHexChars)
        = some (chunkPairs (bytes.flatMap byteToHexChars)) := by
      unfold matchPairs
      cases bytes with
      | nil => exact absurd rfl hne
      | cons b rest => simp [List.flatMap_cons, byteToHexChars]
    change Option.map
      (fun chunks => textDecode (List.map (fun chunk => toUint8 (parseIntHex chunk)) chunks))
      (matchPairs (bytes.flatMap byteToHexChars)) = some text
    rw [hmatch, Option.map_some']
    rw [chunkPairs_hexEncode bytes hrange, hdec]
  · intro hplain htext
    have hd : text.data.isEmpty = false := by
      cases htd : text.data with
      | nil => exact absurd htd htext
      | cons a l => rfl
    rw [decodeVecU8, hd]
    simp only [Bool.false_eq_true, if_false]
    unfold hexMarked at hplain
    split
    · rename_i heq
      rw [heq] at hplain
      simp at hplain
    · rfl

/-- A concrete UTF-8 decoder restriction for the witness: it maps the
bytes of "hi" to "hi". -/
def demoTextDecode (vec : List Nat) : String :=
  if vec = [104, 105] then "hi" else ""

/-- Witness for C8 on the concrete text "hi". -/
theorem decodeVecU8_agreement_witness :
    decodeVecU8 demoTextDecode (.bytes [104, 105]) = some "hi" ∧
    decodeVecU8 demoTextDecode (.str (hexEncode [104, 105])) = some "hi" ∧
    decodeVecU8 demoTextDecode (.str "hi") = some "hi" := by
  have h := decodeVecU8_agreement demoTextDecode "hi" [104, 105]
    (by decide) (by decide) (by decide)
  exact ⟨h.1, h.2.1, h.2.2 (by decide) (by decide)⟩

/-- JavaScript `Math.atan2(y, x)`: the argument of the point `(x, y)`
in the complex plane. -/
noncomputable def atan2 (y x : ℝ) : ℝ :=
  Complex.arg { re := x, im := y }

/-- `calculateDistance` from `meetup-utils`: the haversine great-circle
distance between two latitude/longitude pairs in degrees, with Earth
radius 6371 km. -/
noncomputable def calculateDistance (lat1 lon1 lat2 lon2 : ℝ) : ℝ :=
  let R : ℝ := 6371
  let dLat := (lat2 - lat1) * (Real.pi / 180)
  let dLon := (lon2 - lon1) * (Real.pi / 180)
  let a :=
    Real.sin (dLat / 2) * Real.sin (dLat / 2) +
      Real.cos (lat1 * (Real.pi / 180)) * Real.cos (lat2 * (Real.pi / 180)) *
        Real.sin (dLon / 2) * Real.sin (dLon / 2)
  R * 2 * atan2 (Real.sqrt a) (Real.sqrt (1 - a))

/-- The inner haversine term `a` of `calculateDistance`, named for use
in proofs. -/
noncomputable def haversineTerm (lat1 lon1 lat2 lon2 : ℝ) : ℝ :=
  Real.sin ((lat2 - lat1) * (Real.pi / 180) / 2) *
      Real.sin ((lat2 - lat1) * (Real.pi / 180) / 2) +
    Real.cos (lat1 * (Real.pi / 180)) * Real.cos (lat2 * (Real.pi / 180)) *
        Real.sin ((lon2 - lon1) * (Real.pi / 180) / 2) *
      Real.sin ((lon2 - lon1) * (Real.pi / 180) / 2)

/-- `calculateDistance` written through `haversineTerm`. -/
theorem calculateDistance_eq (lat1 lon1 lat2 lon2 : ℝ) :
    calculateDistance lat1 lon1 lat2 lon2
      = 6371 * 2 * atan2 (Real.sqrt (haversineTerm lat1 lon1 lat2 lon2))
          (Real.sqrt (1 - haversineTerm lat1 lon1 lat2 lon2)) :=
  rfl

/-- C10: the haversine distance is non-negative, symmetric in its two
endpoints, and zero on identical endpoints. -/
theorem calculateDistance_props (lat1 lon1 lat2 lon2 : ℝ) :
    0 ≤ calculateDistance lat1 lon1 lat2 lon2 ∧
    calculateDistance lat1 lon1 lat2 lon2 = calculateDistance lat2 lon2 lat1 lon1 ∧
    calculateDistance lat1 lon1 lat1 lon1 = 0 := by
  refine ⟨?_, ?_, ?_⟩
  · rw [calculateDistance_eq]
    have harg : 0 ≤ atan2 (Real.sqrt (haversineTerm lat1 lon1 lat2 lon2))
        (Real.sqrt (1 - haversineTerm lat1 lon1 lat2 lon2)) :=
      Complex.arg_nonneg_iff.mpr (Real.sqrt_nonneg _)
    have hradius : (0 : ℝ) ≤ 6371 * 2 := by norm_num
    exact mul_nonneg hradius harg
  · have hA : haversineTerm lat2 lon2 lat1 lon1 = haversineTerm lat1 lon1 lat2 lon2 := by
      unfold haversineTerm
      have e1 : (lat1 - lat2) * (Real.pi / 180) / 2
          = -((lat2 - lat1) * (Real.pi / 180) / 2) := by ring
      have e2 : (lon1 - lon2) * (Real.pi / 180) / 2
          = -((lon2 - lon1) * (Real.pi / 180) / 2) := by ring
      rw [e1, e2, Real.sin_neg, Real.sin_neg]
      ring
    rw [calculateDistance_eq, calculateDistance_eq, hA]
  · have hA : haversineTerm lat1 lon1 lat1 lon1 = 0 := by
      unfold haversineTerm
      simp
    rw [calculateDistance_eq, hA, Real.sqrt_zero, sub_zero, Real.sqrt_one]
    have hone : ({ re := (1 : ℝ), im := (0 : ℝ) } : ℂ) = 1 := by
      apply Complex.ext <;> simp
    unfold atan2
    rw [hone, Complex.arg_one, mul_zero]

/-- A record of the `Home` proximity pipeline: the meetup together with
its parsed coordinates (`none` is `NaN`) and its distance from the
viewer (`⊤` is `Infinity`). -/
structure RankedMeetup where
  meetup : Meetup
  distance : WithTop ℝ
  lat : Option ℚ
  lon : Option ℚ

/-- One step of the `Home` pipeline (`meetup-details.tsx`):
`const [lat, lon] = m.location.split(',').map(Number)` and
`distance = userLocation && !isNaN(lat) && !isNaN(lon) ? calculateDistance(...) : Infinity`. -/
noncomputable def rankMeetup (userLocation : Option (ℚ × ℚ)) (m : Meetup) : RankedMeetup :=
  let parts := splitOnChar ',' m.location.data
  let lat := jsNumberOpt parts[0]?
  let lon := jsNumberOpt parts[1]?
  let distance : WithTop ℝ :=
    match userLocation with
    | none => ⊤
    | some u =>
      match lat, lon with
      | some la, some lo =>
        ((calculateDistance (u.1 : ℝ) (u.2 : ℝ) (la : ℝ) (lo : ℝ) : ℝ) : WithTop ℝ)
      | _, _ => ⊤
  ⟨m, distance, lat, lon⟩

/-- The distance comparator of the pipeline's sort (the JS comparator
`a.distance - b.distance`, under which two `Infinity` distances compare
as equal because `NaN` comparator results count as zero). -/
noncomputable def distLE (a b : RankedMeetup) : Bool :=
  decide (a.distance ≤ b.distance)

/-- The chronological comparator of the fallback sort
(`a.timestamp - b.timestamp`). -/
def timeLE (a b : RankedMeetup) : Bool :=
  decide (a.meetup.timestamp ≤ b.meetup.timestamp)

/-- `inPersonMeetups` from the `Home` component: filter the collection
to InPerson records, attach coordinates and distances, and sort by
distance when the viewer's location is available (`userLocation` set
and no location error — in the component exactly one of the two holds)
or chronologically by timestamp otherwise. -/
noncomputable def inPersonMeetups (userLocation : Option (ℚ × ℚ))
    (meetups : List Meetup) : List RankedMeetup :=
  let ranked := (meetups.filter (fun m => m.locationType == "InPerson")).map
    (rankMeetup userLocation)
  match userLocation with
  | some _ => ranked.mergeSort distLE
  | none => ranked.mergeSort timeLE

/-- `closestMeetupId` from the `Home` component: the id of the first
record of the sorted list when that record's distance is finite,
`null` (`none`) otherwise. -/
noncomputable def closestMeetupId (userLocation : Option (ℚ × ℚ))
    (meetups : List Meetup) : Option Nat :=
  match inPersonMeetups userLocation meetups with
  | [] => none
  | x :: _ => if x.distance = ⊤ then none else some x.meetup.id

/-- The distance comparator is transitive. -/
theorem distLE_trans (a b c : RankedMeetup) :
    distLE a b → distLE b c → distLE a c := by
  unfold distLE
  simp only [decide_eq_true_eq]
  exact le_trans

/-- The distance comparator is total. -/
theorem distLE_total (a b : RankedMeetup) : distLE a b || distLE b a := by
  unfold distLE
  simpa using le_total a.distance b.distance

/-- The chronological comparator is transitive. -/
theorem timeLE_trans (a b c : RankedMeetup) :
    timeLE a b → timeLE b c → timeLE a c := by
  unfold timeLE
  simp only [decide_eq_true_eq]
  exact le_trans

/-- The chronological comparator is total. -/
theorem timeLE_total (a b : RankedMeetup) : timeLE a b || timeLE b a := by
  unfold timeLE
  simpa using le_total a.meetup.timestamp b.meetup.timestamp

/-- With the viewer's location available, the pipeline output is sorted
by distance. -/
theorem inPersonMeetups_sorted_dist (u : ℚ × ℚ) (meetups : List Meetup) :
    (inPersonMeetups (some u) meetups).Sorted (fun a b => a.distance ≤ b.distance) := by
  have hs := List.sorted_mergeSort distLE_trans distLE_total
    ((meetups.filter (fun m => m.locationType == "InPerson")).map (rankMeetup (some u)))
  exact hs.imp (fun h => by
    simpa only [distLE, decide_eq_true_eq] using h)

/-- Without the viewer's location, the pipeline output is sorted
chronologically. -/
theorem inPersonMeetups_sorted_time (meetups : List Meetup) :
    (inPersonMeetups none meetups).Sorted
      (fun a b => a.meetup.timestamp ≤ b.meetup.timestamp) := by
  have hs := List.sorted_mergeSort timeLE_trans timeLE_total
    ((meetups.filter (fun m => m.locationType == "InPerson")).map (rankMeetup none))
  exact hs.imp (fun h => by
    simpa only [timeLE, decide_eq_true_eq] using h)

/-- Without the viewer's location, every pipeline record carries an
infinite distance. -/
theorem inPersonMeetups_none_top (meetups : List Meetup) :
    ∀ r ∈ inPersonMeetups none meetups, r.distance = ⊤ := by
  intro r hr
  have hr2 : r ∈ (meetups.filter (fun m => m.locationType == "InPerson")).map
      (rankMeetup none) := List.mem_mergeSort.mp hr
  rcases List.mem_map.mp hr2 with ⟨m, _, hm⟩
  rw [← hm]
  rfl

/-- C4: a record with parseable coordinates and an available viewer
location is assigned the haversine distance from the viewer; a record
with an unparseable coordinate is assigned `Infinity` and never a
finite distance; with the viewer location the list is sorted ascending
by distance, without it ascending by timestamp; and the closest flag
names the head of the sorted list exactly when that head's distance is
finite — in particular never when no finite distance exists. -/
theorem proximity_ranking (userLocation : Option (ℚ × ℚ)) (meetups : List Meetup) :
    (∀ (u : ℚ × ℚ) (la lo : ℚ) (m : Meetup), userLocation = some u →
      jsNumberOpt (splitOnChar ',' m.location.data)[0]? = some la →
      jsNumberOpt (splitOnChar ',' m.location.data)[1]? = some lo →
      (rankMeetup userLocation m).distance
        = ((calculateDistance (u.1 : ℝ) (u.2 : ℝ) (la : ℝ) (lo : ℝ) : ℝ) : WithTop ℝ)) ∧
    (∀ m : Meetup,
      (jsNumberOpt (splitOnChar ',' m.location.data)[0]? = none ∨
        jsNumberOpt (splitOnChar ',' m.location.data)[1]? = none) →
      (rankMeetup userLocation m).distance = ⊤) ∧
    (∀ u : ℚ × ℚ, userLocation = some u →
      (inPersonMeetups userLocation meetups).Sorted (fun a b => a.distance ≤ b.distance)) ∧
    (userLocation = none →
      (inPersonMeetups userLocation meetups).Sorted
        (fun a b => a.meetup.timestamp ≤ b.meetup.timestamp)) ∧
    (∀ i : Nat, closestMeetupId userLocation meetups = some i →
      ∃ x xs, inPersonMeetups userLocation meetups = x :: xs ∧
        x.meetup.id = i ∧ x.distance ≠ ⊤ ∧
        ∀ y ∈ inPersonMeetups userLocation meetups, x.distance ≤ y.distance) ∧
    ((∀ r ∈ inPersonMeetups userLocation meetups, r.distance = ⊤) →
      closestMeetupId userLocation meetups = none) := by
  refine ⟨?_, ?_, ?_, ?_, ?_, ?_⟩
  · intro u la lo m hu h1 h2
    subst hu
    simp [rankMeetup, h1, h2]
  · intro m h
    cases hul : userLocation with
    | none => simp [rankMeetup]
    | some u =>
      rcases h with h | h
      · simp [rankMeetup, h]
      · cases hla : jsNumberOpt (splitOnChar ',' m.location.data)[0]? with
        | none => simp [rankMeetup, hla]
        | some la => simp [rankMeetup, hla, h]
  · intro u hu
    subst hu
    exact inPersonMeetups_sorted_dist u meetups
  · intro hu
    subst hu
    exact inPersonMeetups_sorted_time meetups
  · intro i hci
    cases hl : inPersonMeetups userLocation meetups with
    | nil =>
      rw [closestMeetupId, hl] at hci
      have hnone : (none : Option Nat) = some i := hci
      exact absurd hnone (by simp)
    | cons x xs =>
      rw [closestMeetupId, hl] at hci
      have hif : (if x.distance = ⊤ then none else some x.meetup.id) = some i := hci
      by_cases hx : x.distance = ⊤
      · rw [if_pos hx] at hif
        exact absurd hif (by simp)
      · rw [if_neg hx] at hif
        refine ⟨x, xs, rfl, Option.some.inj hif, hx, ?_⟩
        cases hul : userLocation with
        | none =>
          have hx2 : x.distance = ⊤ := by
            rw [hul] at hl
            exact inPersonMeetups_none_top meetups x
              (by rw [hl]; exact List.mem_cons_self x xs)
          exact absurd hx2 hx
        | some u =>
          have hsorted := inPersonMeetups_sorted_dist u meetups
          rw [hul] at hl
          rw [hl] at hsorted
          intro y hy
          rcases List.mem_cons.mp hy with hy | hy
          · subst hy
            exact le_rfl
          · exact (List.pairwise_cons.mp hsorted).1 y hy
  · intro hall
    cases hl : inPersonMeetups userLocation meetups with
    | nil => rw [closestMeetupId, hl]
    | cons x xs =>
      have hx : x.distance = ⊤ := hall x (by rw [hl]; exact List.mem_cons_self x xs)
      have hstep : closestMeetupId userLocation meetups
          = (if x.distance = ⊤ then none else some x.meetup.id) := by
        rw [closestMeetupId, hl]
      rw [hstep, if_pos hx]

/-- The latitude part of the demo record's location string. -/
theorem demo_lat_parses :
    jsNumberOpt (splitOnChar ',' demoMeetup.location.data)[0]? = some 51.5 := by
  have h : jsNumberOpt (splitOnChar ',' demoMeetup.location.data)[0]?
      = some ((1 : ℚ) * decimalOfParts ['5', '1'] ['5']) := rfl
  have h1 : natOfDigits ['5', '1'] = 51 := by decide
  have h2 : natOfDigits ['5'] = 5 := by decide
  rw [h]
  simp only [decimalOfParts, h1, h2, List.length_cons, List.length_nil]
  norm_num

/-- The longitude part of the demo record's location string. -/
theorem demo_lon_parses :
    jsNumberOpt (splitOnChar ',' demoMeetup.location.data)[1]? = some (-0.09) := by
  have h : jsNumberOpt (splitOnChar ',' demoMeetup.location.data)[1]?
      = some ((-1 : ℚ) * decimalOfParts ['0'] ['0', '9']) := rfl
  have h3 : natOfDigits ['0'] = 0 := by decide
  have h4 : natOfDigits ['0', '9'] = 9 := by decide
  rw [h]
  simp only [decimalOfParts, h3, h4, List.length_cons, List.length_nil]
  norm_num

/-- A concrete InPerson record with a legacy pipe-delimited location. -/
def demoBadMeetup : Meetup :=
  { id := 3, title := "Legacy", location := "old|format", locationType := "InPerson",
    description := "d", timestamp := 1700000100000, price := 0, maxAttendees := 5,
    attendees := [], status := "Planned", totalPaid := 0, host := "carol",
    timezone := "UTC" }

/-- Witness for C4 at a concrete viewer location and concrete records:
the well-formed record receives the haversine distance, the legacy
record receives `Infinity`, and the viewerless collection is sorted
chronologically. -/
theorem proximity_ranking_witness :
    (rankMeetup (some (51.6, -0.1)) demoMeetup).distance
      = ((calculateDistance ((51.6 : ℚ) : ℝ) ((-0.1 : ℚ) : ℝ)
          ((51.5 : ℚ) : ℝ) ((-0.09 : ℚ) : ℝ) : ℝ) : WithTop ℝ) ∧
    (rankMeetup (some (51.6, -0.1)) demoBadMeetup).distance = ⊤ ∧
    (inPersonMeetups none [demoMeetup, demoBadMeetup]).Sorted
      (fun a b => a.meetup.timestamp ≤ b.meetup.timestamp) := by
  refine ⟨?_, ?_, ?_⟩
  · exact (proximity_ranking (some (51.6, -0.1)) []).1 (51.6, -0.1) 51.5 (-0.09)
      demoMeetup rfl demo_lat_parses demo_lon_parses
  · exact (proximity_ranking (some (51.6, -0.1)) []).2.1 demoBadMeetup (Or.inl (by decide))
  · exact (proximity_ranking none [demoMeetup, demoBadMeetup]).2.2.2.1 rfl

end Meetdot
